import Mathlib

/-!
Verification of the conversational assistant stream client
(frontend chatbot widget: ChatbotFab and OrderListUI).

The development shallowly embeds the widget's logic:
  * the frame-decoding loop of the streaming `send` handler
    (per-chunk split on newline, `data: ` marker filtering),
  * the per-record event dispatch (metadata / text_chunk / ui_action /
    done / error) together with the surrounding try/catch/finally,
  * the `handleOrderSelect` follow-up request, and
  * the OrderListUI selection surface.

Strings arriving from the network are modelled as lists of characters
(the chunks produced after UTF-8 decoding); JSON values are modelled by
an inductive `Json` type, and the outcome of the platform JSON parser on
one extracted line is modelled as an `Option Json` (`none` standing for
a parse that throws).
-/

/-- JSON values as produced by the platform parser. -/
inductive Json where
  | null : Json
  | bool (b : Bool) : Json
  | num (n : Int) : Json
  | str (s : String) : Json
  | arr (elems : List Json) : Json
  | obj (fields : List (String × Json)) : Json

/-- Property lookup on a list of object fields, first match wins. -/
def lookupField : List (String × Json) → String → Option Json
  | [], _ => none
  | (k2, v) :: rest, k => if k2 = k then some v else lookupField rest k

/-- Property access `d.k` as the dispatch code performs it: a field of an
object, and `none` (the JS `undefined`) on absent fields or non-objects. -/
def Json.getField : Json → String → Option Json
  | Json.obj fs, k => lookupField fs k
  | _, _ => none

/-- Truthiness of a JS value, as tested by `if (newState)` and
`if (data.answer)` in the widget. `none` stands for `undefined`. -/
def jsTruthy : Option Json → Bool
  | none => false
  | some Json.null => false
  | some (Json.bool b) => b
  | some (Json.num n) => decide (n ≠ 0)
  | some (Json.str s) => decide (s ≠ "")
  | some (Json.arr _) => true
  | some (Json.obj _) => true

/-- String coercion of a JS value as it would be concatenated or rendered.
Only the primitive cases are exercised by the protocol; the recursive JS
stringification of array elements is abbreviated. -/
def jsDisplay : Json → String
  | Json.null => "null"
  | Json.bool true => "true"
  | Json.bool false => "false"
  | Json.num n => toString n
  | Json.str s => s
  | Json.arr _ => "[array]"
  | Json.obj _ => "[object Object]"

/-- String coercion including the `undefined` case. -/
def jsStringOf : Option Json → String
  | none => "undefined"
  | some j => jsDisplay j

/-- Whitespace recognized by `String.prototype.trim`. -/
def isWs (c : Char) : Bool :=
  c = ' ' ∨ c = '\n' ∨ c = '\t' ∨ c = '\r'

/-- Model of `input.trim()`. -/
def jsTrim (s : String) : String :=
  String.mk (((s.data.dropWhile isWs).reverse.dropWhile isWs).reverse)

/-- Concatenation of a list of strings, in order. -/
def strConcat : List String → String
  | [] => ""
  | s :: ss => s ++ strConcat ss

/-- Model of `selectedOrderIds.join(', ')`. -/
def joinIds : List String → String
  | [] => ""
  | s :: ss => List.foldl (fun a b => a ++ ", " ++ b) s ss

/-! ## Frame decoding

The streaming `send` handler runs, for every chunk read from the body:
`const lines = chunk.split('\n')` and then, per line,
`if (line.startsWith('data: ')) { JSON.parse(line.slice(6)) ... }`.
No residual is carried from one chunk to the next.
-/

/-- Model of `chunk.split('\n')` over the characters of one chunk. -/
def splitNl : List Char → List (List Char)
  | [] => [[]]
  | c :: cs =>
    if c = '\n' then [] :: splitNl cs
    else
      match splitNl cs with
      | [] => [[c]]
      | l :: ls => (c :: l) :: ls

/-- Model of the `line.startsWith('data: ')` test combined with
`line.slice(6)`: the payload of a marked line, `none` otherwise. -/
def dataPayload : List Char → Option (List Char)
  | 'd' :: 'a' :: 't' :: 'a' :: ':' :: ' ' :: rest => some rest
  | _ => none

/-- Payload lines extracted from a single chunk by the loop body. -/
def chunkRecords (chunk : List Char) : List (List Char) :=
  (splitNl chunk).filterMap dataPayload

/-- Payload lines extracted by the whole read loop over a chunk sequence:
each chunk is split and filtered independently. -/
def decodeChunks (chunks : List (List Char)) : List (List Char) :=
  (chunks.map chunkRecords).flatten

/-- Wire encoding of a sequence of complete lines, each newline-terminated. -/
def encodeLines (lines : List (List Char)) : List Char :=
  (lines.map (fun l => l ++ ['\n'])).flatten

/-! ## Transcript and controller state -/

/-- Speaker of a transcript entry (`role` in the message objects). -/
inductive Role where
  | user : Role
  | bot : Role
deriving DecidableEq

/-- Transcript entries (`ChatMsg` in the widget): plain text bubbles and
the structured order-list entry. The order-list entry stores the
`ui_data` payload verbatim, as the dispatch code does. -/
inductive ChatMsg where
  | text (role : Role) (content : String) : ChatMsg
  | orderList (message : String) (orders : Option Json) : ChatMsg

/-- Component state of the widget: the rendered messages, the opaque
conversation state, the busy flag and the input buffer. -/
structure ChatState where
  messages : List ChatMsg
  conversationState : Option Json
  isLoading : Bool
  input : String

/-- Local variables of one streaming turn inside `send`, together with
the pieces of component state the loop can update. -/
structure LoopVars where
  accumulatedText : String
  newState : Option Json
  botMessageAdded : Bool
  messages : List ChatMsg
  isLoading : Bool
  conversationState : Option Json

/-- Apology text appended by the catch block. -/
def apologyText : String := "죄송합니다. 오류가 발생했습니다. 다시 시도해주세요."

/-- Apology entry appended by the catch block. -/
def apologyMsg : ChatMsg := ChatMsg.text Role.bot apologyText

/-- Header text of the order-list entry. -/
def orderListHeader : String := "주문 목록입니다."

/-- Body of an outgoing chat request:
`{ message, user_id, previous_state }`. -/
structure RequestBody where
  message : String
  user_id : String
  previous_state : Option Json

/-- Outcome of the streaming fetch, as far as the handler can observe it:
a thrown network error, a non-2xx response, or a body whose extracted
`data: ` lines produced the given JSON parse results (`none` models a
line on which `JSON.parse` throws). -/
inductive StreamResponse where
  | netError : StreamResponse
  | httpError : StreamResponse
  | okBody (records : List (Option Json)) : StreamResponse

/-- Outcome of the non-streaming fetch used by `handleOrderSelect`. -/
inductive SimpleResponse where
  | netError : SimpleResponse
  | httpError : SimpleResponse
  | okJson (data : Json) : SimpleResponse

/-- Result of a handler invocation: the resulting component state and the
request body it put on the wire, if any. -/
structure SendResult where
  state : ChatState
  request : Option RequestBody

/-- In-place update of the last message performed by the later
`text_chunk` branch: the last entry's text is replaced by the
accumulated text whenever that entry is a text entry. -/
def mutateLast (ms : List ChatMsg) (acc : String) : List ChatMsg :=
  match ms.getLast? with
  | some (ChatMsg.text r _) => ms.dropLast ++ [ChatMsg.text r acc]
  | _ => ms

/-- Dispatch of one decoded record, following the `if`/`else if` chain of
the stream loop. `none` models a thrown exception: a record whose
`JSON.parse` failed, property access on a parsed `null`, or an `error`
event. All other records, including ones of unknown type, leave the
variables as they are. -/
def processRecord (v : LoopVars) (r : Option Json) : Option LoopVars :=
  match r with
  | none => none
  | some Json.null => none
  | some d =>
    match d.getField ("type") with
    | some (Json.str t) =>
      if t = "metadata" then
        some { v with newState := d.getField ("state") }
      else if t = "text_chunk" then
        let content := jsStringOf (d.getField ("content"))
        if v.botMessageAdded = false then
          some { v with
            isLoading := false
            botMessageAdded := true
            messages := v.messages ++ [ChatMsg.text Role.bot content]
            accumulatedText := content }
        else
          let acc := v.accumulatedText ++ content
          some { v with
            accumulatedText := acc
            messages := mutateLast v.messages acc }
      else if t = "ui_action" then
        let v1 :=
          match d.getField ("ui_action") with
          | some (Json.str a) =>
            if a = "show_order_list" then
              { v with
                isLoading := false
                messages := v.messages ++
                  [ChatMsg.orderList orderListHeader (d.getField ("ui_data"))] }
            else v
          | _ => v
        some { v1 with newState := d.getField ("state") }
      else if t = "done" then
        some { v with
          conversationState :=
            if jsTruthy v.newState = true then v.newState
            else v.conversationState }
      else if t = "error" then
        none
      else
        some v
    | _ => some v

/-- Iteration of the dispatch over the records of the turn. The `Bool`
reports whether an exception escaped to the catch block; the returned
variables are the ones live at that moment, since every state update
already performed sticks. -/
def processRecords (v : LoopVars) : List (Option Json) → LoopVars × Bool
  | [] => (v, false)
  | r :: rs =>
    match processRecord v r with
    | some v2 => processRecords v2 rs
    | none => (v, true)

/-- State reached right after the guard of `send`: the trimmed input is
appended as a user entry, the input buffer is cleared and the busy flag
raised. -/
def turnStart (st : ChatState) : ChatState :=
  { st with
    messages := st.messages ++ [ChatMsg.text Role.user (jsTrim st.input)]
    input := ""
    isLoading := true }

/-- Initial loop variables of the streaming turn. -/
def initLoop (st : ChatState) : LoopVars :=
  { accumulatedText := ""
    newState := none
    botMessageAdded := false
    messages := st.messages
    isLoading := st.isLoading
    conversationState := st.conversationState }

/-- The streaming `send` handler. The guard rejects an empty trimmed
input or a busy controller; otherwise the user entry is appended, the
request issued, the stream records dispatched, a caught exception turns
into one apology entry, and the finally block clears the busy flag. -/
def send (st : ChatState) (resp : StreamResponse) : SendResult :=
  let text := jsTrim st.input
  if text = "" ∨ st.isLoading = true then
    { state := st, request := none }
  else
    let st1 := turnStart st
    let req : RequestBody :=
      { message := text, user_id := "guest", previous_state := st.conversationState }
    match resp with
    | StreamResponse.netError =>
      { state := { st1 with messages := st1.messages ++ [apologyMsg], isLoading := false }
        request := some req }
    | StreamResponse.httpError =>
      { state := { st1 with messages := st1.messages ++ [apologyMsg], isLoading := false }
        request := some req }
    | StreamResponse.okBody records =>
      let res := processRecords (initLoop st1) records
      let stMid : ChatState :=
        { st1 with
          messages := res.1.messages
          isLoading := res.1.isLoading
          conversationState := res.1.conversationState }
      if res.2 = true then
        { state := { stMid with messages := stMid.messages ++ [apologyMsg], isLoading := false }
          request := some req }
      else
        { state := { stMid with isLoading := false }
          request := some req }

/-- The `handleOrderSelect` callback: rejects an empty selection, joins
the selected order ids into the machine-directed message, raises the
busy flag, issues the non-streaming request without appending any user
entry, and on success replaces the conversation state with the
response's `state` field and appends the `answer` text when truthy. -/
def handleOrderSelect (st : ChatState) (selectedOrderIds : List String)
    (resp : SimpleResponse) : SendResult :=
  if selectedOrderIds.length = 0 then
    { state := st, request := none }
  else
    let text := joinIds selectedOrderIds
    let st1 := { st with isLoading := true }
    let req : RequestBody :=
      { message := text, user_id := "guest", previous_state := st.conversationState }
    match resp with
    | SimpleResponse.netError =>
      { state := { st1 with messages := st1.messages ++ [apologyMsg], isLoading := false }
        request := some req }
    | SimpleResponse.httpError =>
      { state := { st1 with messages := st1.messages ++ [apologyMsg], isLoading := false }
        request := some req }
    | SimpleResponse.okJson data =>
      let st2 := { st1 with conversationState := data.getField ("state") }
      let st3 :=
        if jsTruthy (data.getField ("answer")) = true then
          { st2 with
            messages := st2.messages ++
              [ChatMsg.text Role.bot (jsStringOf (data.getField ("answer")))] }
        else st2
      { state := { st3 with isLoading := false }, request := some req }

/-! ## OrderListUI selection surface -/

/-- Toggling one order id in the local selection set. -/
def toggleOrder (selectedIds : List String) (orderId : String) : List String :=
  if orderId ∈ selectedIds then selectedIds.erase orderId
  else selectedIds ++ [orderId]

/-- Disabled condition of the confirm control:
`disabled={selectedIds.size === 0}`. -/
def confirmDisabled (selectedIds : List String) : Bool :=
  decide (selectedIds.length = 0)

/-! ## Record builders used in the statements -/

/-- Metadata record carrying a state. -/
def mkMetadata (s : Json) : Json :=
  Json.obj [("type", Json.str ("metadata")), ("state", s)]

/-- Text-chunk record carrying a content string. -/
def mkTextChunk (c : String) : Json :=
  Json.obj [("type", Json.str ("text_chunk")), ("content", Json.str c)]

/-- Terminal done record. -/
def mkDone : Json :=
  Json.obj [("type", Json.str ("done"))]

/-- Terminal error record carrying a message. -/
def mkError (m : String) : Json :=
  Json.obj [("type", Json.str ("error")), ("message", Json.str m)]

/-- Order-list UI action record carrying a payload and a state. -/
def mkOrderListAction (ui_data : Json) (s : Json) : Json :=
  Json.obj [("type", Json.str ("ui_action")),
    ("ui_action", Json.str ("show_order_list")),
    ("ui_data", ui_data), ("state", s)]

/-- UI action record of another kind, carrying no state field. -/
def mkUiActionBare : Json :=
  Json.obj [("type", Json.str ("ui_action")),
    ("ui_action", Json.str ("show_address_search"))]

/-- Test on a parse result: is it a done record? -/
def isDoneRecord (r : Option Json) : Bool :=
  match r with
  | some d =>
    match d.getField ("type") with
    | some (Json.str t) => decide (t = "done")
    | _ => false
  | none => false

/-- Test on a transcript entry: is it a user-authored text entry? -/
def isUserMsg : ChatMsg → Bool
  | ChatMsg.text Role.user _ => true
  | _ => false

/-! ## Frame decoder lemmas -/

theorem splitNl_ne_nil (u : List Char) : splitNl u ≠ [] := by
  induction u with
  | nil => simp [splitNl]
  | cons c cs ih =>
    by_cases hc : c = '\n'
    · simp [splitNl, hc]
    · cases h : splitNl cs with
      | nil => simp [splitNl, hc, h]
      | cons l ls => simp [splitNl, hc, h]

theorem splitNl_append_nl (u v : List Char) :
    splitNl (u ++ '\n' :: v) = splitNl u ++ splitNl v := by
  induction u with
  | nil => simp [splitNl]
  | cons c cs ih =>
    by_cases hc : c = '\n'
    · subst hc
      simp [splitNl, ih]
    · obtain ⟨l, ls, h⟩ := List.exists_cons_of_ne_nil (splitNl_ne_nil cs)
      have hcons : List.cons c cs ++ '\n' :: v = c :: (cs ++ '\n' :: v) := rfl
      rw [hcons, splitNl, if_neg hc, ih, h, splitNl, if_neg hc, h]
      simp

theorem splitNl_no_nl (u : List Char) (h : '\n' ∉ u) : splitNl u = [u] := by
  induction u with
  | nil => simp [splitNl]
  | cons c cs ih =>
    have hc : ¬(c = '\n') := fun hx => h (by simp [hx])
    have hcs : '\n' ∉ cs := fun hx => h (List.mem_cons_of_mem _ hx)
    rw [splitNl, if_neg hc, ih hcs]

theorem chunkRecords_nil : chunkRecords [] = [] := by
  simp [chunkRecords, splitNl, dataPayload]

theorem chunkRecords_concat_nl (a : List Char) :
    chunkRecords (a ++ ['\n']) = (splitNl a).filterMap dataPayload := by
  have h : a ++ ['\n'] = a ++ '\n' :: ([] : List Char) := rfl
  rw [chunkRecords, h, splitNl_append_nl]
  simp [splitNl, dataPayload]

theorem chunkRecords_append_nl (a b : List Char) :
    chunkRecords ((a ++ ['\n']) ++ b) =
      chunkRecords (a ++ ['\n']) ++ chunkRecords b := by
  have h : (a ++ ['\n']) ++ b = a ++ '\n' :: b := by simp
  rw [h, chunkRecords, splitNl_append_nl, List.filterMap_append,
    chunkRecords_concat_nl, chunkRecords]

theorem decodeChunks_aligned (chunks : List (List Char))
    (hc : ∀ c ∈ chunks, c = [] ∨ c.getLast? = some '\n') :
    decodeChunks chunks = chunkRecords chunks.flatten := by
  induction chunks with
  | nil => simp [decodeChunks, chunkRecords_nil]
  | cons c cs ih =>
    have hcs : ∀ x ∈ cs, x = [] ∨ x.getLast? = some '\n' :=
      fun x hx => hc x (List.mem_cons_of_mem _ hx)
    have hdec : decodeChunks (c :: cs) = chunkRecords c ++ decodeChunks cs := by
      simp [decodeChunks]
    rcases hc c (List.mem_cons_self c cs) with hnil | hlast
    · subst hnil
      simp [hdec, chunkRecords_nil, ih hcs]
    · rcases List.eq_nil_or_concat c with hnil | ⟨a, x, hax⟩
      · subst hnil
        simp at hlast
      · have hx : x = '\n' := by
          subst hax
          simpa [List.getLast?_concat] using hlast
        subst hx
        rw [List.concat_eq_append] at hax
        subst hax
        rw [hdec, ih hcs]
        have hfl : List.flatten ((a ++ ['\n']) :: cs) =
            (a ++ ['\n']) ++ List.flatten cs := by simp
        rw [hfl, chunkRecords_append_nl]

theorem chunkRecords_encodeLines (lines : List (List Char))
    (h : ∀ l ∈ lines, '\n' ∉ l) :
    chunkRecords (encodeLines lines) = lines.filterMap dataPayload := by
  induction lines with
  | nil => simp [encodeLines, chunkRecords_nil]
  | cons l ls ih =>
    have hl : '\n' ∉ l := h l (List.mem_cons_self l ls)
    have hls : ∀ x ∈ ls, '\n' ∉ x := fun x hx => h x (List.mem_cons_of_mem _ hx)
    have henc : encodeLines (l :: ls) = (l ++ ['\n']) ++ encodeLines ls := by
      simp [encodeLines]
    rw [henc, chunkRecords_append_nl, chunkRecords_concat_nl, splitNl_no_nl l hl,
      ih hls, List.filterMap_cons]
    cases hd : dataPayload l <;> simp [List.filterMap_cons, hd]

theorem length_filterMap_of_isSome {α β : Type} (f : α → Option β) (l : List α)
    (h : ∀ x ∈ l, (f x).isSome = true) : (l.filterMap f).length = l.length := by
  induction l with
  | nil => simp
  | cons x xs ih =>
    have hx := h x (List.mem_cons_self x xs)
    cases hfx : f x with
    | none => rw [hfx] at hx; simp at hx
    | some b =>
      rw [List.filterMap_cons, hfx]
      simp only [List.length_cons]
      rw [ih (fun y hy => h y (List.mem_cons_of_mem _ hy))]

/-! ## Controller lemmas -/

theorem send_of_busy (st : ChatState) (resp : StreamResponse)
    (h : st.isLoading = true) :
    send st resp = { state := st, request := none } := by
  simp [send, h]

theorem send_okBody_eq (st : ChatState) (records : List (Option Json))
    (h1 : ¬(jsTrim st.input = "")) (h2 : st.isLoading = false) :
    send st (StreamResponse.okBody records) =
      (if (processRecords (initLoop (turnStart st)) records).2 = true then
        { state :=
            { turnStart st with
              messages := (processRecords (initLoop (turnStart st)) records).1.messages
                ++ [apologyMsg]
              isLoading := false
              conversationState :=
                (processRecords (initLoop (turnStart st)) records).1.conversationState }
          request := some
            { message := jsTrim st.input, user_id := "guest"
              previous_state := st.conversationState } }
      else
        { state :=
            { turnStart st with
              messages := (processRecords (initLoop (turnStart st)) records).1.messages
              isLoading := false
              conversationState :=
                (processRecords (initLoop (turnStart st)) records).1.conversationState }
          request := some
            { message := jsTrim st.input, user_id := "guest"
              previous_state := st.conversationState } }) := by
  simp only [send, h1, h2, false_or, if_false, Bool.false_eq_true, or_self, ite_false]

theorem send_netError_eq (st : ChatState)
    (h1 : ¬(jsTrim st.input = "")) (h2 : st.isLoading = false) :
    send st StreamResponse.netError =
      { state :=
          { turnStart st with
            messages := (turnStart st).messages ++ [apologyMsg]
            isLoading := false }
        request := some
          { message := jsTrim st.input, user_id := "guest"
            previous_state := st.conversationState } } := by
  simp [send, h1, h2]

theorem send_httpError_eq (st : ChatState)
    (h1 : ¬(jsTrim st.input = "")) (h2 : st.isLoading = false) :
    send st StreamResponse.httpError = send st StreamResponse.netError := by
  simp [send, h1, h2]

theorem processRecords_append (v : LoopVars) (xs ys : List (Option Json))
    (h : (processRecords v xs).2 = false) :
    processRecords v (xs ++ ys) = processRecords (processRecords v xs).1 ys := by
  induction xs generalizing v with
  | nil => simp [processRecords]
  | cons x xs ih =>
    cases hx : processRecord v x with
    | some v2 =>
      have hxs : (processRecords v2 xs).2 = false := by
        simpa [processRecords, hx] using h
      simp [processRecords, hx, ih v2 hxs]
    | none =>
      exfalso
      simp [processRecords, hx] at h

theorem processRecord_state_of_not_done (v v2 : LoopVars) (r : Option Json)
    (h : processRecord v r = some v2) (hd : isDoneRecord r = false) :
    v2.conversationState = v.conversationState := by
  match r with
  | none => simp [processRecord] at h
  | some Json.null => simp [processRecord] at h
  | some (Json.bool b) =>
    simp [processRecord, Json.getField] at h
    subst h; rfl
  | some (Json.num n) =>
    simp [processRecord, Json.getField] at h
    subst h; rfl
  | some (Json.str s) =>
    simp [processRecord, Json.getField] at h
    subst h; rfl
  | some (Json.arr xs) =>
    simp [processRecord, Json.getField] at h
    subst h; rfl
  | some (Json.obj fs) =>
    simp only [processRecord] at h
    cases hty : (Json.obj fs).getField ("type") with
    | none => rw [hty] at h; cases h; rfl
    | some tv =>
      cases tv with
      | str t =>
        rw [hty] at h
        simp only at h
        by_cases hm : t = "metadata"
        · simp only [hm, if_pos rfl] at h; cases h; rfl
        · by_cases htc : t = "text_chunk"
          · simp only [hm, htc, if_neg, if_pos rfl] at h
            by_cases hb : v.botMessageAdded = false
            · simp only [hb, if_pos rfl] at h
              cases h; rfl
            · simp only [hb, if_neg, if_false] at h
              cases h; rfl
          · by_cases hua : t = "ui_action"
            · simp only [hm, htc, hua, if_neg, if_pos rfl] at h
              cases h
              cases hact : (Json.obj fs).getField ("ui_action") with
              | none => simp [hact]
              | some av =>
                cases av <;> simp [hact]
                rename_i a
                by_cases hshow : a = "show_order_list" <;> simp [hshow]
            · by_cases hdn : t = "done"
              · exfalso
                rw [isDoneRecord, hty] at hd
                simp [hdn] at hd
              · by_cases herr : t = "error"
                · simp [hm, htc, hua, hdn, herr] at h
                · simp only [hm, htc, hua, hdn, herr, if_neg, if_false] at h
                  cases h; rfl
      | null => rw [hty] at h; cases h; rfl
      | bool b => rw [hty] at h; cases h; rfl
      | num n => rw [hty] at h; cases h; rfl
      | arr xs => rw [hty] at h; cases h; rfl
      | obj fs2 => rw [hty] at h; cases h; rfl

theorem processRecords_state_of_no_done (v : LoopVars) (rs : List (Option Json))
    (h : ∀ r ∈ rs, isDoneRecord r = false) :
    ((processRecords v rs).1).conversationState = v.conversationState := by
  induction rs generalizing v with
  | nil => simp [processRecords]
  | cons r rs ih =>
    cases hr : processRecord v r with
    | some v2 =>
      have hstep := processRecord_state_of_not_done v v2 r hr
        (h r (List.mem_cons_self r rs))
      rw [processRecords, hr, ih v2 (fun x hx => h x (List.mem_cons_of_mem _ hx)), hstep]
    | none =>
      simp [processRecords, hr]

theorem processRecord_error (v : LoopVars) (m : String) :
    processRecord v (some (mkError m)) = none := by
  simp [processRecord, mkError, Json.getField, lookupField]

theorem processRecord_metadata (v : LoopVars) (s : Json) :
    processRecord v (some (mkMetadata s)) = some { v with newState := some s } := by
  simp [processRecord, mkMetadata, Json.getField, lookupField]

theorem processRecord_done_truthy (v : LoopVars) (h : jsTruthy v.newState = true) :
    processRecord v (some mkDone) = some { v with conversationState := v.newState } := by
  simp [processRecord, mkDone, Json.getField, lookupField, h]

theorem processRecord_done_falsy (v : LoopVars) (h : jsTruthy v.newState = false) :
    processRecord v (some mkDone) = some v := by
  simp [processRecord, mkDone, Json.getField, lookupField, h]

theorem processRecord_orderListAction (v : LoopVars) (ui_data s : Json) :
    processRecord v (some (mkOrderListAction ui_data s)) =
      some { v with
        isLoading := false
        messages := v.messages ++ [ChatMsg.orderList orderListHeader (some ui_data)]
        newState := some s } := by
  simp [processRecord, mkOrderListAction, Json.getField, lookupField]

theorem processRecord_uiActionBare (v : LoopVars) :
    processRecord v (some mkUiActionBare) = some { v with newState := none } := by
  simp [processRecord, mkUiActionBare, Json.getField, lookupField]

theorem processRecord_textChunk_first (v : LoopVars) (c : String)
    (h : v.botMessageAdded = false) :
    processRecord v (some (mkTextChunk c)) =
      some { v with
        isLoading := false
        botMessageAdded := true
        messages := v.messages ++ [ChatMsg.text Role.bot c]
        accumulatedText := c } := by
  simp [processRecord, mkTextChunk, Json.getField, lookupField, h, jsStringOf, jsDisplay]

theorem processRecord_textChunk_next (v : LoopVars) (c : String)
    (h : v.botMessageAdded = true) :
    processRecord v (some (mkTextChunk c)) =
      some { v with
        accumulatedText := v.accumulatedText ++ c
        messages := mutateLast v.messages (v.accumulatedText ++ c) } := by
  simp [processRecord, mkTextChunk, Json.getField, lookupField, h, jsStringOf, jsDisplay]

theorem mutateLast_concat_text (pre : List ChatMsg) (r : Role) (s acc : String) :
    mutateLast (pre ++ [ChatMsg.text r s]) acc = pre ++ [ChatMsg.text r acc] := by
  simp [mutateLast, List.getLast?_concat, List.dropLast_concat]

theorem mutateLast_concat_orderList (pre : List ChatMsg) (m : String)
    (o : Option Json) (acc : String) :
    mutateLast (pre ++ [ChatMsg.orderList m o]) acc = pre ++ [ChatMsg.orderList m o] := by
  simp [mutateLast, List.getLast?_concat]

theorem processRecords_textChunks (cs : List String) (pre : List ChatMsg) (v : LoopVars)
    (hb : v.botMessageAdded = true)
    (hm : v.messages = pre ++ [ChatMsg.text Role.bot v.accumulatedText]) :
    processRecords v (cs.map fun s => some (mkTextChunk s)) =
      ({ v with
          accumulatedText := v.accumulatedText ++ strConcat cs
          messages := pre ++ [ChatMsg.text Role.bot (v.accumulatedText ++ strConcat cs)] },
        false) := by
  induction cs generalizing v with
  | nil =>
    simp only [List.map_nil, processRecords, strConcat, String.append_empty]
    rw [← hm]
  | cons c cs ih =>
    simp only [List.map_cons, processRecords, processRecord_textChunk_next v c hb]
    rw [hm, mutateLast_concat_text]
    rw [ih _ (by simp [hb]) (by simp)]
    simp only [strConcat]
    congr 2 <;> rw [String.append_assoc]

/-! ## Claim theorems -/

/-- C1 (counterexample): the chunking `da | ta: {}\n`, whose concatenation is
the single well-formed line `data: {}` followed by its newline, makes the
per-chunk decoding loop extract no record at all, while decoding the
undivided input extracts exactly that one record. The loop keeps no residual
buffer across reads, so a chunk boundary inside a line loses the record. -/
theorem frameDecoder_boundary_split_drops_record :
    decodeChunks [['d', 'a'], ['t', 'a', ':', ' ', '\x7b', '\x7d', '\n']] = [] ∧
    List.flatten [['d', 'a'], ['t', 'a', ':', ' ', '\x7b', '\x7d', '\n']] =
      encodeLines [['d', 'a', 't', 'a', ':', ' ', '\x7b', '\x7d']] ∧
    chunkRecords (encodeLines [['d', 'a', 't', 'a', ':', ' ', '\x7b', '\x7d']]) =
      [['\x7b', '\x7d']] :=
  ⟨by decide, by decide, by decide⟩

/-- C1 (amended): the decoding loop is chunking-invariant only for chunkings
aligned with line boundaries. If every chunk is empty or ends with a newline
and the concatenation is the encoding of N marker-carrying lines, the loop
yields exactly those N payloads; boundaries inside a line are not recovered,
since no residual buffer is kept. -/
theorem frameDecoder_chunking_invariance_line_aligned
    (lines chunks : List (List Char))
    (hlines : ∀ l ∈ lines, '\n' ∉ l ∧ (dataPayload l).isSome = true)
    (hchunks : ∀ c ∈ chunks, c = [] ∨ c.getLast? = some '\n')
    (hjoin : chunks.flatten = encodeLines lines) :
    decodeChunks chunks = lines.filterMap dataPayload ∧
    (decodeChunks chunks).length = lines.length := by
  have h1 := decodeChunks_aligned chunks hchunks
  rw [hjoin, chunkRecords_encodeLines lines (fun l hl => (hlines l hl).1)] at h1
  refine ⟨h1, ?_⟩
  rw [h1]
  exact length_filterMap_of_isSome _ _ (fun l hl => (hlines l hl).2)

/-- C1 (witness): a one-line stream read in a single newline-terminated chunk
decodes to exactly one record. -/
theorem frameDecoder_chunking_invariance_line_aligned_witness :
    (decodeChunks [['d', 'a', 't', 'a', ':', ' ', '\x7b', '\x7d', '\n']]).length =
      ([['d', 'a', 't', 'a', ':', ' ', '\x7b', '\x7d']] : List (List Char)).length :=
  (frameDecoder_chunking_invariance_line_aligned
    [['d', 'a', 't', 'a', ':', ' ', '\x7b', '\x7d']]
    [['d', 'a', 't', 'a', ':', ' ', '\x7b', '\x7d', '\n']]
    (by decide) (by decide) (by decide)).2

/-- C2 (counterexample): with the controller busy (`isLoading` true),
confirming an order selection still issues a network request: the
`handleOrderSelect` callback checks only for an empty selection, not the
busy flag, so a second request can be opened while a turn is in flight. -/
theorem orderSelect_opens_request_while_busy :
    (handleOrderSelect
      { messages := [], conversationState := none, isLoading := true, input := "" }
      ["A1"] (SimpleResponse.okJson (Json.obj []))).request =
      some { message := "A1", user_id := "guest", previous_state := none } := by
  rfl

/-- C2 (amended): a visible `send` while the controller is busy is a strict
no-op (state unchanged, no request); the hidden order-selection send,
however, is unguarded: for any non-empty selection it issues a request
regardless of the busy flag. -/
theorem send_busy_noop_orderSelect_unguarded :
    (∀ (st : ChatState) (resp : StreamResponse), st.isLoading = true →
      send st resp = { state := st, request := none }) ∧
    (∀ (st : ChatState) (ids : List String) (resp : SimpleResponse), ids ≠ [] →
      ((handleOrderSelect st ids resp).request).isSome = true) := by
  constructor
  · exact fun st resp h => send_of_busy st resp h
  · intro st ids resp h
    have hlen : ¬(ids.length = 0) := by simpa using h
    cases resp <;> simp [handleOrderSelect, hlen]

/-- C2 (witness): the busy no-op and the unguarded hidden send at concrete
inputs. -/
theorem send_busy_noop_orderSelect_unguarded_witness :
    send { messages := [], conversationState := none, isLoading := true, input := "x" }
      StreamResponse.netError =
      { state := { messages := [], conversationState := none,
                   isLoading := true, input := "x" },
        request := none } ∧
    ((handleOrderSelect
      { messages := [], conversationState := none, isLoading := true, input := "" }
      ["A1"] SimpleResponse.netError).request).isSome = true :=
  ⟨send_busy_noop_orderSelect_unguarded.1 _ StreamResponse.netError rfl,
   send_busy_noop_orderSelect_unguarded.2 _ ["A1"] SimpleResponse.netError (by simp)⟩

/-- C3 (counterexample): a record whose payload fails `JSON.parse` aborts the
whole turn rather than being dropped: the following `text_chunk` and `done`
records are never processed, and the generic apology entry is appended by
the catch block. -/
theorem parse_failure_aborts_turn :
    send { messages := [], conversationState := none, isLoading := false, input := "hi" }
      (StreamResponse.okBody [none, some (mkTextChunk ("ok")), some mkDone]) =
      { state := { messages := [ChatMsg.text Role.user ("hi"), apologyMsg],
                   conversationState := none, isLoading := false, input := "" },
        request := some { message := "hi", user_id := "guest",
                          previous_state := none } } := by
  rfl

/-- C3 (amended): a decoded record of unrecognized type is silently ignored
and the turn continues, but a record whose payload fails to parse throws:
the remaining records of the turn are never dispatched. -/
theorem unknown_record_ignored_parse_failure_fatal :
    (∀ (v : LoopVars) (d : Json),
      d ≠ Json.null →
      (∀ t ∈ (["metadata", "text_chunk", "ui_action", "done", "error"] : List String),
        Json.getField d ("type") ≠ some (Json.str t)) →
      processRecord v (some d) = some v) ∧
    (∀ (v : LoopVars) (rs : List (Option Json)),
      processRecords v (none :: rs) = (v, true)) := by
  constructor
  · intro v d hnull hty
    match d with
    | Json.null => exact absurd rfl hnull
    | Json.bool b => simp [processRecord, Json.getField]
    | Json.num n => simp [processRecord, Json.getField]
    | Json.str s => simp [processRecord, Json.getField]
    | Json.arr xs => simp [processRecord, Json.getField]
    | Json.obj fs =>
      simp only [processRecord]
      cases hf : Json.getField (Json.obj fs) ("type") with
      | none => simp [hf]
      | some tv =>
        cases tv with
        | null => simp [hf]
        | bool b => simp [hf]
        | num n => simp [hf]
        | arr xs => simp [hf]
        | obj fs2 => simp [hf]
        | str t =>
          have ht : ∀ x ∈ (["metadata", "text_chunk", "ui_action", "done", "error"] :
              List String), ¬(t = x) := by
            intro x hx hco
            exact hty x hx (by rw [hf, hco])
          simp [hf, ht "metadata" (by simp), ht "text_chunk" (by simp),
            ht "ui_action" (by simp), ht "done" (by simp), ht "error" (by simp)]
  · intro v rs
    simp [processRecords, processRecord]

/-- C3 (witness): a `status_update` record, which this widget does not
handle, is ignored, and a failing parse aborts with the remaining records
unprocessed. -/
theorem unknown_record_ignored_parse_failure_fatal_witness :
    processRecord
      { accumulatedText := "", newState := none, botMessageAdded := false,
        messages := [], isLoading := true, conversationState := none }
      (some (Json.obj [("type", Json.str ("status_update"))])) =
      some { accumulatedText := "", newState := none, botMessageAdded := false,
             messages := [], isLoading := true, conversationState := none } ∧
    processRecords
      { accumulatedText := "", newState := none, botMessageAdded := false,
        messages := [], isLoading := true, conversationState := none }
      [none, some mkDone] =
      ({ accumulatedText := "", newState := none, botMessageAdded := false,
         messages := [], isLoading := true, conversationState := none }, true) :=
  ⟨unknown_record_ignored_parse_failure_fatal.1 _ _ (by simp)
      (by intro t htl; fin_cases htl <;> simp [Json.getField, lookupField]),
   unknown_record_ignored_parse_failure_fatal.2 _ [some mkDone]⟩

/-- C4 (counterexample): in the turn `text_chunk "A"`, `ui_action
show_order_list`, `text_chunk "B"`, `done`, the chunk `"B"` arriving after
the structured entry opens no fresh assistant entry: the update branch finds
the order list as last entry and leaves the transcript unchanged, so `"B"`
is silently dropped rather than rendered. -/
theorem text_chunk_after_structured_entry_lost :
    send { messages := [], conversationState := none, isLoading := false, input := "q" }
      (StreamResponse.okBody [some (mkTextChunk ("A")),
        some (mkOrderListAction (Json.arr []) Json.null),
        some (mkTextChunk ("B")), some mkDone]) =
      { state := { messages := [ChatMsg.text Role.user ("q"),
                     ChatMsg.text Role.bot ("A"),
                     ChatMsg.orderList orderListHeader (some (Json.arr []))],
                   conversationState := none, isLoading := false, input := "" },
        request := some { message := "q", user_id := "guest",
                          previous_state := none } } := by
  rfl

/-- C4 (amended): within one turn the first `text_chunk` opens one assistant
entry and all following chunks concatenate into it in place; a structured
entry closes it; but a `text_chunk` arriving after the structured entry is
dropped from the transcript (only the internal accumulator grows), it does
not start a fresh assistant entry. -/
theorem transcript_incremental_assembly (st : ChatState) (c c2 : String)
    (cs : List String) (ui_data : Json)
    (h1 : ¬(jsTrim st.input = "")) (h2 : st.isLoading = false) :
    (send st (StreamResponse.okBody
        ((c :: cs).map fun x => some (mkTextChunk x)))).state.messages =
      st.messages ++ [ChatMsg.text Role.user (jsTrim st.input),
        ChatMsg.text Role.bot (strConcat (c :: cs))] ∧
    (send st (StreamResponse.okBody
        (((c :: cs).map fun x => some (mkTextChunk x)) ++
          [some (mkOrderListAction ui_data Json.null),
           some (mkTextChunk c2)]))).state.messages =
      st.messages ++ [ChatMsg.text Role.user (jsTrim st.input),
        ChatMsg.text Role.bot (strConcat (c :: cs)),
        ChatMsg.orderList orderListHeader (some ui_data)] := by
  have hfirst := processRecord_textChunk_first (initLoop (turnStart st)) c rfl
  have hA : processRecords (initLoop (turnStart st))
      ((c :: cs).map fun x => some (mkTextChunk x)) =
      ({ accumulatedText := c ++ strConcat cs
         newState := none
         botMessageAdded := true
         messages := (turnStart st).messages ++
           [ChatMsg.text Role.bot (c ++ strConcat cs)]
         isLoading := false
         conversationState := st.conversationState }, false) := by
    simp only [List.map_cons, processRecords, hfirst]
    rw [processRecords_textChunks cs ((turnStart st).messages) _ rfl (by simp [initLoop])]
    simp [initLoop, turnStart]
  constructor
  · rw [send_okBody_eq st _ h1 h2, hA]
    simp [turnStart, strConcat]
  · rw [send_okBody_eq st _ h1 h2,
      processRecords_append _ _ _ (by rw [hA]), hA]
    simp only
    rw [processRecords, processRecord_orderListAction]
    simp only
    rw [processRecords, processRecord_textChunk_next _ c2 rfl]
    simp only
    have hmut : mutateLast
        (((turnStart st).messages ++ [ChatMsg.text Role.bot (c ++ strConcat cs)]) ++
          [ChatMsg.orderList orderListHeader (some ui_data)])
        ((c ++ strConcat cs) ++ c2) =
        ((turnStart st).messages ++ [ChatMsg.text Role.bot (c ++ strConcat cs)]) ++
          [ChatMsg.orderList orderListHeader (some ui_data)] :=
      mutateLast_concat_orderList _ _ _ _
    rw [hmut]
    simp [processRecords, turnStart, strConcat]

theorem send_request_eq (st : ChatState) (resp : StreamResponse)
    (h1 : ¬(jsTrim st.input = "")) (h2 : st.isLoading = false) :
    (send st resp).request =
      some { message := jsTrim st.input, user_id := "guest",
             previous_state := st.conversationState } := by
  cases resp with
  | netError => rw [send_netError_eq st h1 h2]
  | httpError => rw [send_httpError_eq st h1 h2, send_netError_eq st h1 h2]
  | okBody records =>
    rw [send_okBody_eq st records h1 h2]
    split <;> rfl

theorem handleOrderSelect_request_eq (st : ChatState) (ids : List String)
    (resp : SimpleResponse) (h : ¬(ids.length = 0)) :
    (handleOrderSelect st ids resp).request =
      some { message := joinIds ids, user_id := "guest",
             previous_state := st.conversationState } := by
  cases resp with
  | netError => simp [handleOrderSelect, h]
  | httpError => simp [handleOrderSelect, h]
  | okJson d =>
    simp [handleOrderSelect, h]

/-- C5: after a turn whose only state-bearing event is `metadata` carrying a
non-null object S followed by `done`, the stored conversation state equals
S, and the next `send` issues its request with `previous_state` exactly S,
passed verbatim. -/
theorem state_echo (st : ChatState) (fs : List (String × Json)) (t : String)
    (resp2 : StreamResponse)
    (h1 : ¬(jsTrim st.input = "")) (h2 : st.isLoading = false)
    (h3 : ¬(jsTrim t = "")) :
    (send st (StreamResponse.okBody
        [some (mkMetadata (Json.obj fs)), some mkDone])).state.conversationState =
      some (Json.obj fs) ∧
    (send { (send st (StreamResponse.okBody
        [some (mkMetadata (Json.obj fs)), some mkDone])).state with input := t }
        resp2).request =
      some { message := jsTrim t, user_id := "guest",
             previous_state := some (Json.obj fs) } := by
  have hloop : processRecords (initLoop (turnStart st))
      [some (mkMetadata (Json.obj fs)), some mkDone] =
      ({ accumulatedText := "", newState := some (Json.obj fs),
         botMessageAdded := false, messages := (turnStart st).messages,
         isLoading := true, conversationState := some (Json.obj fs) }, false) := by
    rw [processRecords, processRecord_metadata]
    simp only
    rw [processRecords, processRecord_done_truthy _ (by simp [jsTruthy])]
    simp [processRecords, initLoop, turnStart]
  have hstate : (send st (StreamResponse.okBody
      [some (mkMetadata (Json.obj fs)), some mkDone])).state =
      { st with
        messages := st.messages ++ [ChatMsg.text Role.user (jsTrim st.input)]
        input := ""
        isLoading := false
        conversationState := some (Json.obj fs) } := by
    rw [send_okBody_eq st _ h1 h2, hloop]
    simp [turnStart]
  refine ⟨by rw [hstate], ?_⟩
  rw [hstate]
  rw [send_request_eq _ resp2 (by simpa using h3) rfl]

/-- C5 (witness): the state echo at a concrete turn and follow-up send. -/
theorem state_echo_witness :
    (send ⟨[], none, false, "hi"⟩
        (StreamResponse.okBody [some (mkMetadata (Json.obj [("k", Json.num 1)])),
          some mkDone])).state.conversationState =
      some (Json.obj [("k", Json.num 1)]) ∧
    (send { (send ⟨[], none, false, "hi"⟩
        (StreamResponse.okBody [some (mkMetadata (Json.obj [("k", Json.num 1)])),
          some mkDone])).state with input := "again" }
        StreamResponse.netError).request =
      some { message := jsTrim ("again"), user_id := "guest",
             previous_state := some (Json.obj [("k", Json.num 1)]) } :=
  state_echo ⟨[], none, false, "hi"⟩
    [("k", Json.num 1)] ("again") StreamResponse.netError
    (by decide) rfl (by decide)

/-- C6: a turn ending in an `error` event (the only terminal of its stream)
or in a transport failure leaves the stored conversation state unchanged
from before the turn, appends exactly one apology entry after whatever the
earlier records produced, clears the busy flag, and a subsequent send
issues a request again. -/
theorem error_turn_recovery (st : ChatState) (pre : List (Option Json)) (m t : String)
    (h1 : ¬(jsTrim st.input = "")) (h2 : st.isLoading = false)
    (hnd : ∀ r ∈ pre, isDoneRecord r = false)
    (hnt : (processRecords (initLoop (turnStart st)) pre).2 = false)
    (h3 : ¬(jsTrim t = "")) :
    (send st (StreamResponse.okBody
        (pre ++ [some (mkError m)]))).state.conversationState =
      st.conversationState ∧
    (send st (StreamResponse.okBody (pre ++ [some (mkError m)]))).state.isLoading =
      false ∧
    (send st (StreamResponse.okBody (pre ++ [some (mkError m)]))).state.messages =
      (processRecords (initLoop (turnStart st)) pre).1.messages ++ [apologyMsg] ∧
    (send st StreamResponse.netError).state =
      { st with
        messages := st.messages ++
          [ChatMsg.text Role.user (jsTrim st.input), apologyMsg]
        input := ""
        isLoading := false } ∧
    send st StreamResponse.httpError = send st StreamResponse.netError ∧
    ((send { (send st (StreamResponse.okBody (pre ++ [some (mkError m)]))).state
        with input := t } StreamResponse.netError).request).isSome = true := by
  have hfull : processRecords (initLoop (turnStart st)) (pre ++ [some (mkError m)]) =
      ((processRecords (initLoop (turnStart st)) pre).1, true) := by
    rw [processRecords_append _ _ _ hnt, processRecords, processRecord_error]
  have hpres : ((processRecords (initLoop (turnStart st)) pre).1).conversationState =
      st.conversationState := by
    rw [processRecords_state_of_no_done _ pre hnd]
    simp [initLoop, turnStart]
  have hstate : (send st (StreamResponse.okBody (pre ++ [some (mkError m)]))).state =
      { st with
        messages := (processRecords (initLoop (turnStart st)) pre).1.messages
          ++ [apologyMsg]
        input := ""
        isLoading := false
        conversationState := st.conversationState } := by
    rw [send_okBody_eq st _ h1 h2, hfull]
    have hp2 := hpres
    simp only [turnStart] at hp2
    simp [turnStart, hp2]
  refine ⟨by rw [hstate], by rw [hstate], by rw [hstate], ?_, ?_, ?_⟩
  · rw [send_netError_eq st h1 h2]
    simp [turnStart]
  · exact send_httpError_eq st h1 h2
  · rw [hstate]
    rw [send_request_eq _ StreamResponse.netError (by simpa using h3) rfl]
    rfl

/-- C6 (witness): recovery at a concrete turn whose stream carries one text
chunk and then an error event. -/
theorem error_turn_recovery_witness :
    (send ⟨[], some (Json.obj [("k", Json.num 7)]), false, "q"⟩
      (StreamResponse.okBody [some (mkTextChunk ("part")),
        some (mkError ("boom"))])).state.conversationState =
      some (Json.obj [("k", Json.num 7)]) ∧
    (send ⟨[], some (Json.obj [("k", Json.num 7)]), false, "q"⟩
      (StreamResponse.okBody [some (mkTextChunk ("part")),
        some (mkError ("boom"))])).state.isLoading = false :=
  ⟨(error_turn_recovery ⟨[], some (Json.obj [("k", Json.num 7)]), false, "q"⟩
      [some (mkTextChunk ("part"))] ("boom") ("r")
      (by decide) rfl (by decide) (by decide) (by decide)).1,
   (error_turn_recovery ⟨[], some (Json.obj [("k", Json.num 7)]), false, "q"⟩
      [some (mkTextChunk ("part"))] ("boom") ("r")
      (by decide) rfl (by decide) (by decide) (by decide)).2.1⟩

/-- C4 (witness): chunks `Hel`, `lo` assemble into the single assistant
entry `Hello`. -/
theorem transcript_incremental_assembly_witness :
    (send ⟨[], none, false, "hello"⟩
        (StreamResponse.okBody
          [some (mkTextChunk ("Hel")), some (mkTextChunk ("lo"))])).state.messages =
      [ChatMsg.text Role.user ("hello"), ChatMsg.text Role.bot ("Hello")] := by
  have h := (transcript_incremental_assembly ⟨[], none, false, "hello"⟩
    ("Hel") ("x") ["lo"] (Json.arr []) (by decide) rfl).1
  have h2 : jsTrim ("hello") = "hello" := by decide
  have h3 : strConcat [("Hel" : String), "lo"] = "Hello" := by decide
  simpa [h2, h3] using h

/-- C7: confirming an order selection issues exactly one request whose
message is the joined selected order ids and whose body carries the current
conversation state; no user-authored entry is appended to the transcript,
and on success the response is processed (its state field is stored). -/
theorem hidden_order_selection (st : ChatState) (ids : List String)
    (resp : SimpleResponse) (h : ids ≠ []) :
    (handleOrderSelect st ids resp).request =
      some { message := joinIds ids, user_id := "guest",
             previous_state := st.conversationState } ∧
    (handleOrderSelect st ids resp).state.messages.take st.messages.length =
      st.messages ∧
    (∀ msg ∈ (handleOrderSelect st ids resp).state.messages.drop st.messages.length,
      isUserMsg msg = false) ∧
    (∀ d, resp = SimpleResponse.okJson d →
      (handleOrderSelect st ids resp).state.conversationState =
        Json.getField d ("state")) ∧
    (handleOrderSelect st ids resp).state.isLoading = false := by
  have hlen : ¬(ids.length = 0) := by simpa using h
  refine ⟨handleOrderSelect_request_eq st ids resp hlen, ?_⟩
  cases resp with
  | netError =>
    simp [handleOrderSelect, hlen, List.take_left, List.drop_left, isUserMsg, apologyMsg]
  | httpError =>
    simp [handleOrderSelect, hlen, List.take_left, List.drop_left, isUserMsg, apologyMsg]
  | okJson d =>
    by_cases hans : jsTruthy (Json.getField d ("answer")) = true
    · simp [handleOrderSelect, hlen, hans, List.take_left, List.drop_left, isUserMsg]
    · have hans2 : jsTruthy (Json.getField d ("answer")) = false :=
        eq_false_of_ne_true hans
      simp [handleOrderSelect, hlen, hans2, isUserMsg]

/-- C7 (witness): a concrete two-order confirmation. -/
theorem hidden_order_selection_witness :
    (handleOrderSelect ⟨[], none, false, ""⟩ ["A1", "B2"]
      (SimpleResponse.okJson
        (Json.obj [("state", Json.obj [("k", Json.num 2)])]))).request =
      some { message := joinIds ["A1", "B2"], user_id := "guest",
             previous_state := none } ∧
    (handleOrderSelect ⟨[], none, false, ""⟩ ["A1", "B2"]
      (SimpleResponse.okJson
        (Json.obj [("state", Json.obj [("k", Json.num 2)])]))).state.conversationState =
      Json.getField (Json.obj [("state", Json.obj [("k", Json.num 2)])]) ("state") :=
  ⟨(hidden_order_selection ⟨[], none, false, ""⟩ ["A1", "B2"] _ (by decide)).1,
   (hidden_order_selection ⟨[], none, false, ""⟩ ["A1", "B2"] _ (by decide)).2.2.2.1
     _ rfl⟩

/-- C8 (counterexample): after `metadata` carrying the state object, a
`ui_action` that carries no state field overwrites the pending state with
`undefined`, so `done` commits nothing: the stored state stays at its
pre-turn value (here `none`) instead of the metadata state S. -/
theorem stateless_ui_action_clobbers_pending_state :
    (send ⟨[], none, false, "q"⟩
      (StreamResponse.okBody [some (mkMetadata (Json.obj [("k", Json.num 1)])),
        some mkUiActionBare, some mkDone])).state.conversationState = none ∧
    ¬((send ⟨[], none, false, "q"⟩
      (StreamResponse.okBody [some (mkMetadata (Json.obj [("k", Json.num 1)])),
        some mkUiActionBare, some mkDone])).state.conversationState =
      some (Json.obj [("k", Json.num 1)])) :=
  ⟨rfl, fun h => Option.noConfusion h⟩

/-- C8 (amended): metadata and ui_action events always overwrite the pending
state with their own state field, clearing it to `undefined` when the field
is absent; `done` commits the pending state only when it is truthy and
otherwise leaves the stored state untouched. Hence the turn `metadata S`,
stateless `ui_action`, `done` commits nothing and the stored state keeps
its pre-turn value. -/
theorem pending_state_semantics :
    (∀ (v : LoopVars),
      processRecord v (some mkUiActionBare) = some { v with newState := none }) ∧
    (∀ (v : LoopVars), jsTruthy v.newState = false →
      processRecord v (some mkDone) = some v) ∧
    (∀ (st : ChatState) (fs : List (String × Json)),
      ¬(jsTrim st.input = "") → st.isLoading = false →
      (send st (StreamResponse.okBody [some (mkMetadata (Json.obj fs)),
        some mkUiActionBare, some mkDone])).state.conversationState =
        st.conversationState) := by
  refine ⟨processRecord_uiActionBare, processRecord_done_falsy, ?_⟩
  intro st fs h1 h2
  have hloop : processRecords (initLoop (turnStart st))
      [some (mkMetadata (Json.obj fs)), some mkUiActionBare, some mkDone] =
      ({ accumulatedText := "", newState := none, botMessageAdded := false,
         messages := (turnStart st).messages, isLoading := true,
         conversationState := st.conversationState }, false) := by
    simp [processRecords, processRecord, mkMetadata, mkUiActionBare, mkDone,
      Json.getField, lookupField, jsTruthy, initLoop, turnStart]
  rw [send_okBody_eq st _ h1 h2, hloop]
  simp

/-- C8 (witness): the amended semantics at concrete inputs. -/
theorem pending_state_semantics_witness :
    processRecord ⟨"", some (Json.obj [("k", Json.num 1)]), false, [], true, none⟩
      (some mkUiActionBare) =
      some ⟨"", none, false, [], true, none⟩ ∧
    (send ⟨[], some (Json.obj [("p", Json.num 9)]), false, "q"⟩
      (StreamResponse.okBody [some (mkMetadata (Json.obj [("k", Json.num 1)])),
        some mkUiActionBare, some mkDone])).state.conversationState =
      some (Json.obj [("p", Json.num 9)]) :=
  ⟨pending_state_semantics.1 ⟨"", some (Json.obj [("k", Json.num 1)]), false, [], true, none⟩,
   pending_state_semantics.2.2 ⟨[], some (Json.obj [("p", Json.num 9)]), false, "q"⟩
     [("k", Json.num 1)] (by decide) rfl⟩

/-- C9 (counterexample): a `show_order_list` action carrying
`requires_selection: false` produces an order-list entry that retains no
selection-requirement information, and the confirm control over an empty
selection is disabled all the same — a zero-selection confirmation is never
possible, contrary to the claimed `requires_selection` escape. -/
theorem zero_selection_confirm_blocked_despite_flag :
    (send ⟨[], none, false, "q"⟩
      (StreamResponse.okBody
        [some (Json.obj [("type", Json.str ("ui_action")),
          ("ui_action", Json.str ("show_order_list")),
          ("ui_data", Json.arr []),
          ("requires_selection", Json.bool false)]), some mkDone])).state.messages =
      [ChatMsg.text Role.user ("q"),
       ChatMsg.orderList orderListHeader (some (Json.arr []))] ∧
    confirmDisabled [] = true :=
  ⟨rfl, rfl⟩

/-- C9 (amended): the confirm control of the order-list surface is disabled
exactly while the local selection set is empty, unconditionally — the
component has no selection-requirement input — and an empty selection never
reaches the network since `handleOrderSelect` returns without a request. -/
theorem confirm_gating (ids : List String) (st : ChatState) (resp : SimpleResponse) :
    (confirmDisabled ids = true ↔ ids = []) ∧
    handleOrderSelect st [] resp = { state := st, request := none } := by
  constructor
  · simp [confirmDisabled, List.length_eq_zero]
  · simp [handleOrderSelect]

/-- C10: every request body issued by either handler carries the constant
`user_id` value `guest`, for every state, input and response. -/
theorem user_identity_constant_guest (st st2 : ChatState) (resp : StreamResponse)
    (resp2 : SimpleResponse) (ids : List String) (b b2 : RequestBody)
    (hb : (send st resp).request = some b)
    (hb2 : (handleOrderSelect st2 ids resp2).request = some b2) :
    b.user_id = "guest" ∧ b2.user_id = "guest" := by
  constructor
  · by_cases hg : jsTrim st.input = "" ∨ st.isLoading = true
    · simp [send, hg] at hb
    · obtain ⟨ha, hl⟩ := not_or.mp hg
      rw [send_request_eq st resp ha (eq_false_of_ne_true hl)] at hb
      cases hb
      rfl
  · by_cases hg : ids.length = 0
    · simp [handleOrderSelect, hg] at hb2
    · rw [handleOrderSelect_request_eq st2 ids resp2 hg] at hb2
      cases hb2
      rfl

/-- C10 (witness): both handlers issue a `guest` request at concrete
inputs. -/
theorem user_identity_constant_guest_witness :
    ({ message := "hi", user_id := "guest", previous_state := none } :
      RequestBody).user_id = "guest" ∧
    ({ message := "A1", user_id := "guest", previous_state := none } :
      RequestBody).user_id = "guest" :=
  user_identity_constant_guest ⟨[], none, false, "hi"⟩ ⟨[], none, false, ""⟩
    StreamResponse.netError SimpleResponse.netError ["A1"] _ _ rfl rfl
